import Mathlib

/-!
Shallow embedding of the rule-matching / response-resolution engine and the
session store of the mock chat assistant (matcher.js, ui.js ChatManager,
storage.js StorageManager), together with theorems settling the spec claims.

Strings are modelled as lists of characters; JavaScript `trim`,
`toLowerCase`, `includes`, `substring` are embedded as the corresponding
list operations.
-/

namespace OwuiMock

/-- Strings are lists of characters. -/
abbrev Str := List Char

/-- Build a `Str` from a Lean string literal. -/
def str (s : String) : Str := s.data

/-- JS `String.prototype.toLowerCase` (per-character lowering). -/
def lowerStr (s : Str) : Str := s.map Char.toLower

/-- JS `String.prototype.trim`: drop leading and trailing whitespace. -/
def trimStr (s : Str) : Str :=
  ((s.dropWhile Char.isWhitespace).reverse.dropWhile Char.isWhitespace).reverse

/-- Does `hay` start with `needle`? -/
def strStartsWith : Str → Str → Bool
  | _, [] => true
  | [], _ :: _ => false
  | h :: hs, n :: ns => h == n && strStartsWith hs ns

/-- JS `String.prototype.includes`: `needle` occurs contiguously in `hay`. -/
def strIncludes : Str → Str → Bool
  | [], needle => strStartsWith [] needle
  | c :: t, needle => strStartsWith (c :: t) needle || strIncludes t needle

/-- The wildcard sentinel `"*"` used by catch-all rules. -/
def wildcard : Str := str "*"

/-- A rule's `match` field: a scalar string, or the deprecated array form. -/
inductive MatchVal where
  | scalar (s : Str)
  | array (ts : List Str)
deriving DecidableEq

/-- Response type of a rule (`"text"` or `"image"`). -/
inductive RType where
  | text
  | image
deriving DecidableEq

/-- A response rule, as found in `replies.json` / the embedded fallback set.
The `match` field is named `matchPat` because `match` is reserved in Lean. -/
structure Rule where
  matchPat : MatchVal
  type : RType
  value : Str
  caseSensitive : Bool := false
  contains : Bool := false
  priority : Option Int := none
  followup : List Str := []
deriving DecidableEq

/-- The sort key used by `loadRules` / the storage listener:
JS `r.priority || 999`, so an absent priority — and, by JS falsiness,
a priority of `0` — is treated as `999`. -/
def effKey (r : Rule) : Int :=
  match r.priority with
  | none => 999
  | some p => if p = 0 then 999 else p

/-- Comparison relation of the rule sort (`ascending effKey`). -/
def effLE (a b : Rule) : Prop := effKey a ≤ effKey b

instance : DecidableRel effLE := fun a b => inferInstanceAs (Decidable (effKey a ≤ effKey b))

instance : IsTotal Rule effLE := ⟨fun a b => Int.le_total (effKey a) (effKey b)⟩

instance : IsTrans Rule effLE := ⟨fun _ _ _ hab hbc => le_trans hab hbc⟩

/-- `rules.sort((a, b) => (a.priority || 999) - (b.priority || 999))`:
a stable ascending sort by `effKey` (JS `Array.prototype.sort` is stable). -/
def sortRules (l : List Rule) : List Rule := l.insertionSort effLE

/-- `MessageMatcher.matchesRule(input, rule)`. -/
def matchesRule (input : Str) (r : Rule) : Bool :=
  match r.matchPat with
  | .scalar s =>
    if s = wildcard then true
    else
      let processedInput := if r.caseSensitive then input else lowerStr input
      let processedMatch := if r.caseSensitive then s else lowerStr s
      processedInput == processedMatch
  | .array ts =>
      let processedInput := if r.caseSensitive then input else lowerStr input
      ts.any fun term =>
        processedInput == (if r.caseSensitive then term else lowerStr term)

/-- The in-memory state of a `MessageMatcher`. -/
structure Matcher where
  rules : List Rule
  isLoaded : Bool
deriving DecidableEq

/-- `MessageMatcher.findMatch(userInput)`. -/
def findMatch (m : Matcher) (userInput : Str) : Option Rule :=
  if m.isLoaded = false then none
  else
    let input := trimStr userInput
    if input = [] then none
    else m.rules.find? fun r => matchesRule input r

/-- A resolved response (`{ type, value, followup }`). -/
structure Response where
  type : RType
  value : Str
  followup : List Str
deriving DecidableEq

/-- `MessageMatcher.getResponse(rule)`. -/
def getResponse (rule : Option Rule) : Response :=
  match rule with
  | none =>
      { type := .text
        value := str "I didn\x27t understand that. Please try again."
        followup := [] }
  | some r => { type := r.type, value := r.value, followup := r.followup }

/-- `MessageMatcher.processInput(userInput)`. -/
def processInput (m : Matcher) (userInput : Str) : Response :=
  getResponse (findMatch m userInput)

/-- `MessageMatcher.getFallbackRules()`: the embedded default rule set. -/
def getFallbackRules : List Rule :=
  [ { matchPat := .scalar (str "What kind of questions can you help with?")
      type := .text
      value := str "I can assist California state employees with:\n• Information about state employee benefits and resources\n• Guidance on accessing government services\n• General workplace policies and procedures\n• Technical support for common issues\n• Directions to relevant departments and contacts\n\nI\x27m designed specifically to support state employees in their daily work."
      caseSensitive := false
      contains := false
      priority := some 1
      followup :=
        [ str "Can you help with technical issues?"
        , str "How do I access employee benefits information?"
        , str "What workplace policies can you explain?"
        , str "Can you provide department contact information?" ] }
  , { matchPat := .scalar (str "Can you provide information on state employee resources?")
      type := .text
      value := str "California state employees have access to comprehensive benefits including:\n• Health insurance through CalPERS\n• Retirement planning and pension information\n• Professional development opportunities\n• Employee assistance programs\n• Flexible work arrangements\n\nFor detailed information, I recommend visiting the CalHR website or contacting your HR department."
      caseSensitive := false
      contains := false
      priority := some 2
      followup :=
        [ str "How do I contact my HR department?"
        , str "What is CalPERS and how do I access it?"
        , str "Can you explain flexible work arrangements?"
        , str "What professional development is available?" ] }
  , { matchPat := .scalar (str "How do I access California state government services?")
      type := .text
      value := str "California offers numerous online services for both employees and citizens:\n• CA.gov portal for general services\n• Employee self-service systems\n• Benefits enrollment and management\n• Training and certification programs\n• Internal communication platforms\n\nMost services are accessible through your employee portal or the main CA.gov website."
      caseSensitive := false
      contains := false
      priority := some 3
      followup :=
        [ str "How do I access the employee portal?"
        , str "What training programs are available?"
        , str "Can you help with benefits enrollment?"
        , str "Where do I find internal communications?" ] }
  , { matchPat := .scalar (str "What are your limitations as a state employee assistant?")
      type := .text
      value := str "As a state employee assistant, I have several important limitations:\n• I cannot access personal employee records or confidential information\n• I cannot make official policy decisions or interpretations\n• I cannot process transactions or make changes to your accounts\n• I cannot provide legal advice or medical guidance\n• I can only provide general information and guidance\n\nFor specific issues, please contact the appropriate department directly."
      caseSensitive := false
      contains := false
      priority := some 4
      followup :=
        [ str "Who should I contact for HR issues?"
        , str "How do I get official policy interpretations?"
        , str "Where can I access my employee records?"
        , str "What departments handle specific issues?" ] }
  , { matchPat := .scalar (str "Can you help with technical issues?")
      type := .text
      value := str "For technical issues, I can provide basic troubleshooting guidance:\n• Check your network connection\n• Clear your browser cache and cookies\n• Restart your computer if applications are slow\n• Ensure you\x27re using supported browsers (Chrome, Firefox, Edge)\n• Contact your local IT support for hardware issues\n\nFor complex technical problems, please submit a ticket to your IT help desk."
      caseSensitive := false
      contains := false
      priority := some 5
      followup :=
        [ str "How do I contact IT support?"
        , str "What browsers are officially supported?"
        , str "How do I submit an IT help desk ticket?"
        , str "Can you help with specific software issues?" ] }
  , { matchPat := .scalar (str "*")
      type := .text
      value := str "I\x27m sorry, I don\x27t understand that request. I\x27m designed to help California state employees with specific topics. Please copy and paste one of the exact prompts from the suggestions below, or contact your administrator to add new approved prompts."
      caseSensitive := false
      contains := false
      priority := some 999
      followup :=
        [ str "What kind of questions can you help with?"
        , str "Can you provide information on state employee resources?"
        , str "How do I access California state government services?"
        , str "Can you help with technical issues?" ] } ]

/-- Outcome of reading and `JSON.parse`-ing a stored string:
`malformed` = `JSON.parse` throws (caught by the surrounding `try`);
`value rf` = parsed, with `rf` the `data.rules` field (`some rs` when it is
an array of rules, `none` when absent or not an array). -/
inductive ParseOutcome where
  | malformed
  | value (rulesField : Option (List Rule))
deriving DecidableEq

/-- Outcome of `fetch(\x27assets/data/replies.json\x27)` + `response.json()`:
`fail` = network error, non-ok status or JSON parse failure (all throw);
`ok rf` = parsed document with `rf` its `data.rules` field. -/
inductive FetchOutcome where
  | fail
  | ok (rulesField : Option (List Rule))
deriving DecidableEq

/-- Which source `loadRules` ended up using. -/
inductive Source where
  | localStorage
  | jsonFile
  | fallback
deriving DecidableEq

/-- Result of `MessageMatcher.loadRules()`. -/
structure LoadResult where
  rules : List Rule
  isLoaded : Bool
  source : Source
deriving DecidableEq

/-- `MessageMatcher.loadRules()`, with the environment (the localStorage
`chatRules` entry and the fetch of `replies.json`) passed as parameters.
`localRules = none` models an absent `chatRules` entry. A `malformed`
localStorage entry makes `JSON.parse` throw inside the `try`, so control
jumps straight to the `catch` (the embedded fallback set) without attempting
the fetch; a parsed entry without a rules array falls through to the fetch.
On the fetch path, an absent/non-array `data.rules` makes
`data.rules.sort(...)` throw, which is likewise caught. Every path sorts by
`effKey` and sets `isLoaded`. -/
def loadRules (localRules : Option ParseOutcome) (fetched : FetchOutcome) : LoadResult :=
  match localRules with
  | some .malformed =>
      { rules := sortRules getFallbackRules, isLoaded := true, source := .fallback }
  | some (.value (some rs)) =>
      { rules := sortRules rs, isLoaded := true, source := .localStorage }
  | some (.value none) | none =>
    match fetched with
    | .ok (some rs) =>
        { rules := sortRules rs, isLoaded := true, source := .jsonFile }
    | .ok none =>
        { rules := sortRules getFallbackRules, isLoaded := true, source := .fallback }
    | .fail =>
        { rules := sortRules getFallbackRules, isLoaded := true, source := .fallback }

/-- The localStorage key carrying rule overrides. -/
def chatRulesKey : Str := str "chatRules"

/-- The handler installed by `MessageMatcher.setupStorageListener()`: on a
storage event it checks `e.key === \x27chatRules\x27 && e.newValue`, parses the
new value, and — only when the payload holds a rules array — replaces the
in-memory rules with the sorted payload. `newValue = none` models an absent
or empty `e.newValue`; parse errors are caught and leave the matcher
unchanged. -/
def handleStorageEvent (m : Matcher) (key : Str) (newValue : Option ParseOutcome) : Matcher :=
  if key = chatRulesKey then
    match newValue with
    | none => m
    | some .malformed => m
    | some (.value none) => m
    | some (.value (some rs)) => { m with rules := sortRules rs }
  else m

/-- Keyword scanned for by `ChatManager.findImageAlternative`. -/
def demoKeyword : Str := str "demo"

/-- Keyword scanned for by `ChatManager.findImageAlternative`. -/
def screenshotKeyword : Str := str "screenshot"

/-- `rule.match.includes(kw)`: JS `String.prototype.includes` (substring)
when `match` is a scalar, `Array.prototype.includes` (element equality)
when it is the legacy array form. -/
def matchIncludes (mv : MatchVal) (kw : Str) : Bool :=
  match mv with
  | .scalar s => strIncludes s kw
  | .array ts => ts.contains kw

/-- `ChatManager.findImageAlternative(userMessage)` over the matcher's rule
list. The objects it returns carry no `followup` field, and the consumer
reads `finalResponse.followup || []`, so the modelled `followup` is `[]`. -/
def findImageAlternative (userMessage : Str) (allRules : List Rule) : Option Response :=
  match allRules.find? (fun r => r.type == RType.image && matchesRule userMessage r) with
  | some r => some { type := .image, value := r.value, followup := [] }
  | none =>
    match allRules.filter (fun r => r.type == RType.image &&
        (matchIncludes r.matchPat demoKeyword || matchIncludes r.matchPat screenshotKeyword)) with
    | [] => none
    | g :: _ => some { type := .image, value := g.value, followup := [] }

/-- The assistant message object that `ChatManager.handleResponse` builds
and hands to storage / message history. -/
structure AssistantMsg where
  content : Str
  responseType : RType
  followup : List Str
deriving DecidableEq

/-- `ChatManager.handleResponse(response, originalMessage)`: picks the final
response (attempting an image alternative when in image mode against a text
response) and builds the recorded assistant message. -/
def handleResponse (isImageMode : Bool) (response : Response) (originalMessage : Str)
    (allRules : List Rule) : AssistantMsg :=
  let picked : Bool × Response :=
    if isImageMode && response.type == RType.text then
      match findImageAlternative originalMessage allRules with
      | some imageResponse => (true, imageResponse)
      | none => (false, response)
    else if response.type == RType.image then (true, response)
    else (false, response)
  { content := picked.2.value
    responseType := if picked.1 then RType.image else RType.text
    followup := picked.2.followup }

/-- Message sender kind. -/
inductive MsgType where
  | user
  | assistant
  | system
deriving DecidableEq

/-- A message as passed into `StorageManager.addMessageToChat` (before the
store adds `id` and `timestamp`). -/
structure MsgIn where
  type : MsgType
  content : Str
  responseType : Option RType := none
  followup : List Str := []
deriving DecidableEq

/-- A message as stored inside a chat: the incoming message together with
the generated `id` and `timestamp`. -/
structure StoredMsg where
  id : Str
  timestamp : Str
  body : MsgIn
deriving DecidableEq

/-- A chat session record. -/
structure Chat where
  id : Str
  title : Str
  messages : List StoredMsg
  created : Str
  updated : Str
  messageCount : Nat
deriving DecidableEq

/-- The persisted collection (`chats` plus `currentChatId`). -/
structure Data where
  chats : List Chat
  currentChatId : Option Str
deriving DecidableEq

/-- `StorageManager.maxMessagesPerChat`. -/
def maxMessagesPerChat : Nat := 100

/-- The default session title. -/
def newChatTitle : Str := str "New Chat"

/-- JS `Array.prototype.slice(-n)`: the last `n` elements (whole list when
shorter). -/
def takeLast (n : Nat) (l : List α) : List α := l.drop (l.length - n)

/-- JS `title.replace(/\s+/g, \x27 \x27)`: collapse every maximal whitespace
run into a single space. -/
def collapseWs : Str → Str
  | [] => []
  | [c] => if c.isWhitespace then [' '] else [c]
  | c1 :: c2 :: rest =>
    if c1.isWhitespace then
      if c2.isWhitespace then collapseWs (c2 :: rest)
      else ' ' :: collapseWs (c2 :: rest)
    else c1 :: collapseWs (c2 :: rest)

/-- `title.charAt(0).toUpperCase() + title.slice(1)`. -/
def capitalizeFirst : Str → Str
  | [] => []
  | c :: cs => c.toUpper :: cs

/-- `StorageManager.generateChatTitle(content)`: first 30 characters of the
trimmed content, whitespace collapsed, an ellipsis appended when the raw
content is longer than 30 characters, first letter capitalized, defaulting
to "New Chat" when empty. -/
def generateChatTitle (content : Str) : Str :=
  let title0 := (trimStr content).take 30
  let title1 := collapseWs title0
  let title2 := if content.length > 30 then title1 ++ str "..." else title1
  let title3 := capitalizeFirst title2
  if title3 = [] then newChatTitle else title3

/-- Replace the first element satisfying `p` (the object JS `Array.find`
returns and the code then mutates). -/
def updateFirst (p : α → Bool) (f : α → α) : List α → List α
  | [] => []
  | x :: xs => if p x then f x :: xs else x :: updateFirst p f xs

/-- The mutation `addMessageToChat` performs on the found chat: push the
message with generated id/timestamp, refresh `messageCount` and `updated`,
derive the title for a first user message on a "New Chat" session, then
truncate to the last `maxMessagesPerChat` messages (re-refreshing
`messageCount`). -/
def appendToChat (c : Chat) (message : MsgIn) (newMsgId now : Str) : Chat :=
  let messages1 := c.messages ++ [{ id := newMsgId, timestamp := now, body := message }]
  let title1 :=
    if c.title = newChatTitle ∧ message.type = MsgType.user ∧ message.content ≠ [] then
      generateChatTitle message.content
    else c.title
  if messages1.length > maxMessagesPerChat then
    let messages2 := takeLast maxMessagesPerChat messages1
    { c with messages := messages2, messageCount := messages2.length,
             title := title1, updated := now }
  else
    { c with messages := messages1, messageCount := messages1.length,
             title := title1, updated := now }

/-- `StorageManager.addMessageToChat(chatId, message)`, with the persisted
data, the generated message id and the current timestamp passed explicitly.
Returns the persisted data after the call together with the boolean result.
When the session is unknown the local copy is discarded unsaved, so the
persisted data is returned unchanged. -/
def addMessageToChat (data : Option Data) (chatId : Str) (message : MsgIn)
    (newMsgId now : Str) : Option Data × Bool :=
  match data with
  | none => (none, false)
  | some d =>
    match d.chats.find? (fun c => c.id == chatId) with
    | none => (some d, false)
    | some _ =>
      let chats1 := updateFirst (fun c => c.id == chatId)
        (fun c => appendToChat c message newMsgId now) d.chats
      (some { d with chats := chats1 }, true)

/-- `StorageManager.deleteChat(chatId)`: `findIndex` + `splice(i, 1)`, and
the current-chat pointer is cleared exactly when it pointed at the deleted
chat. -/
def deleteChat (data : Option Data) (chatId : Str) : Option Data × Bool :=
  match data with
  | none => (none, false)
  | some d =>
    match d.chats.findIdx? (fun c => c.id == chatId) with
    | none => (some d, false)
    | some i =>
      let chats1 := d.chats.take i ++ d.chats.drop (i + 1)
      let current1 := if d.currentChatId == some chatId then none else d.currentChatId
      (some { d with chats := chats1, currentChatId := current1 }, true)

/-- The literal (non-wildcard) match strings a rule compares the input
against: the scalar match when it is not the sentinel, or the elements of a
legacy array match. -/
def litMatches (r : Rule) : List Str :=
  match r.matchPat with
  | .scalar s => if s = wildcard then [] else [s]
  | .array ts => ts

/-- Modelled from the claim wording of the sort order — ascending
`priority` with a missing priority treated as 999 (and a zero priority kept
as 0) — for comparison against the implemented key `effKey`. -/
def claimKey (r : Rule) : Int :=
  match r.priority with
  | none => 999
  | some p => p

/-- Example rule: scalar match "Hello", case-insensitive. -/
def ruleHello : Rule :=
  { matchPat := .scalar (str "Hello"), type := .text, value := str "hello response" }

/-- Example rule matching "hi" with priority 0 (a falsy priority in JS). -/
def rulePriorityZero : Rule :=
  { matchPat := .scalar (str "hi"), type := .text, value := str "zero", priority := some 0 }

/-- Example rule matching "hi" with priority 1. -/
def rulePriorityOne : Rule :=
  { matchPat := .scalar (str "hi"), type := .text, value := str "one", priority := some 1 }

/-- A matcher loaded (via `loadRules`, localStorage path) with the two
"hi" rules of priorities 0 and 1. -/
def matcherPriorities : Matcher :=
  { rules := (loadRules (some (ParseOutcome.value (some [rulePriorityZero, rulePriorityOne])))
        FetchOutcome.fail).rules
    isLoaded := true }

/-- Example catch-all rule. -/
def ruleCatchAll : Rule :=
  { matchPat := .scalar (str "*"), type := .text, value := str "catch", priority := some 999 }

/-- A loaded matcher holding a literal rule and a catch-all. -/
def matcherWithCatchAll : Matcher :=
  { rules := sortRules [ruleHello, ruleCatchAll], isLoaded := true }

/-- Example rule for the loader chain. -/
def simpleRule : Rule :=
  { matchPat := .scalar (str "ping"), type := .text, value := str "pong", priority := some 1 }

/-- An already-loaded matcher with an empty rule list. -/
def matcherEmpty : Matcher := { rules := [], isLoaded := true }

/-- Example text-only rule set for the modality fallback. -/
def textOnlyRule : Rule :=
  { matchPat := .scalar (str "show me a chart"), type := .text, value := str "chart text"
    followup := [str "another chart"] }

/-- Example text response, as `getResponse` would build it from
`textOnlyRule`. -/
def textResponse : Response :=
  { type := .text, value := str "chart text", followup := [str "another chart"] }

/-- Example session. -/
def chatAlpha : Chat :=
  { id := str "chat_a", title := str "Alpha", messages := [], created := str "t0"
    updated := str "t0", messageCount := 0 }

/-- Example session still carrying the default title. -/
def chatNew : Chat :=
  { id := str "chat_n", title := str "New Chat", messages := [], created := str "t0"
    updated := str "t0", messageCount := 0 }

/-- Example persisted collection with two sessions. -/
def dataTwoChats : Data :=
  { chats := [chatAlpha, chatNew], currentChatId := some (str "chat_a") }

/-- Example incoming user message. -/
def msgHiThere : MsgIn := { type := MsgType.user, content := str "hi there" }

/-! ## Helper lemmas -/

/-- `sortRules` produces a list sorted by the effective priority key. -/
theorem sortRules_sorted (l : List Rule) : List.Sorted effLE (sortRules l) :=
  List.sorted_insertionSort effLE l

/-- `sortRules` is a permutation of its input. -/
theorem sortRules_perm (l : List Rule) : (sortRules l).Perm l :=
  List.perm_insertionSort effLE l

/-- If a member of a list satisfies the predicate, `find?` succeeds, and the
found element satisfies the predicate and belongs to the list. -/
theorem find?_mem_of_sat {α : Type} {p : α → Bool} :
    ∀ {l : List α} {r : α}, r ∈ l → p r = true →
      ∃ x, l.find? p = some x ∧ p x = true ∧ x ∈ l := by
  intro l
  induction l with
  | nil => intro r hr _; simp at hr
  | cons h t ih =>
    intro r hr hp
    by_cases hph : p h = true
    · exact ⟨h, List.find?_cons_of_pos t hph, hph, List.mem_cons_self h t⟩
    · have hrt : r ∈ t := by
        rcases List.mem_cons.mp hr with rfl | h2
        · exact absurd hp hph
        · exact h2
      obtain ⟨x, hf, hpx, hxm⟩ := ih hrt hp
      exact ⟨x, by rw [List.find?_cons_of_neg t hph, hf], hpx, List.mem_cons_of_mem h hxm⟩

/-- On a list sorted by `effKey`, `find?` returns a satisfying element whose
key is minimal among satisfying elements (here: at most the key of any given
satisfying member). -/
theorem find?_sorted_min {p : Rule → Bool} :
    ∀ {l : List Rule}, List.Sorted effLE l → ∀ {r : Rule}, r ∈ l → p r = true →
      ∃ x, l.find? p = some x ∧ p x = true ∧ effKey x ≤ effKey r := by
  intro l
  induction l with
  | nil => intro _ r hr _; simp at hr
  | cons h t ih =>
    intro hs r hr hp
    by_cases hph : p h = true
    · refine ⟨h, List.find?_cons_of_pos t hph, hph, ?_⟩
      rcases List.mem_cons.mp hr with rfl | hrt
      · exact le_refl _
      · exact (List.sorted_cons.mp hs).1 r hrt
    · have hrt : r ∈ t := by
        rcases List.mem_cons.mp hr with rfl | h2
        · exact absurd hp hph
        · exact h2
      obtain ⟨x, hf, hpx, hle⟩ := ih (List.sorted_cons.mp hs).2 hrt hp
      exact ⟨x, by rw [List.find?_cons_of_neg t hph, hf], hpx, hle⟩

/-- Scalar, non-wildcard matching is exactly the equality test on the
case-normalized strings. -/
theorem matchesRule_scalar_eq {input : Str} {r : Rule} {s : Str}
    (hm : r.matchPat = MatchVal.scalar s) (hw : s ≠ wildcard) :
    matchesRule input r =
      ((if r.caseSensitive then input else lowerStr input) ==
        (if r.caseSensitive then s else lowerStr s)) := by
  simp [matchesRule, hm, hw]

/-- Legacy array matching is an equality test against some element. -/
theorem matchesRule_array_eq {input : Str} {r : Rule} {ts : List Str}
    (hm : r.matchPat = MatchVal.array ts) :
    matchesRule input r =
      ts.any (fun t => (if r.caseSensitive then input else lowerStr input) ==
        (if r.caseSensitive then t else lowerStr t)) := by
  simp [matchesRule, hm]

/-! ## Claims -/

/-- Claim C1: for every rule with `caseSensitive = false` and a scalar,
non-wildcard string match, the matching test `findMatch` applies to the
trimmed input (`matchesRule (trimStr input)`) accepts any input equal to the
match up to letter case after trimming, rejects any input whose
normalization is a strict substring or strict superstring (not equal) of the
normalized match, and on a loaded matcher holding the rule `findMatch`
agrees with that test. -/
theorem c1_exact_match (r : Rule) (s input : Str)
    (hm : r.matchPat = MatchVal.scalar s) (hcs : r.caseSensitive = false)
    (hw : s ≠ wildcard) :
    (lowerStr (trimStr input) = lowerStr s → matchesRule (trimStr input) r = true) ∧
    (lowerStr (trimStr input) ≠ lowerStr s ∧
        (strIncludes (lowerStr s) (lowerStr (trimStr input)) = true ∨
          strIncludes (lowerStr (trimStr input)) (lowerStr s) = true) →
      matchesRule (trimStr input) r = false) ∧
    (∀ m : Matcher, m.isLoaded = true → m.rules = [r] → trimStr input ≠ [] →
      (findMatch m input = some r ↔ matchesRule (trimStr input) r = true)) := by
  have hmr : matchesRule (trimStr input) r = (lowerStr (trimStr input) == lowerStr s) := by
    rw [matchesRule_scalar_eq hm hw, hcs]
    simp
  refine ⟨?_, ?_, ?_⟩
  · intro h
    rw [hmr]
    exact beq_iff_eq.mpr h
  · rintro ⟨hne, _⟩
    rw [hmr]
    cases habs : (lowerStr (trimStr input) == lowerStr s) with
    | false => rfl
    | true => exact absurd (beq_iff_eq.mp habs) hne
  · intro m hl hr1 hne
    constructor
    · intro hf
      by_cases hp : matchesRule (trimStr input) r = true
      · exact hp
      · exfalso
        have hnone : findMatch m input = none := by
          simp [findMatch, hl, hne, hr1, List.find?_cons_of_neg _ hp]
        rw [hnone] at hf
        exact Option.noConfusion hf
    · intro hp
      simp [findMatch, hl, hne, hr1, List.find?_cons_of_pos _ hp]

/-- Witness for C1 at the rule matching "Hello": the input "  hELLo " (case
and edge-whitespace noise) matches, the strict substring "Hell" does not. -/
theorem c1_exact_match_witness :
    matchesRule (trimStr (str "  hELLo ")) ruleHello = true ∧
    matchesRule (trimStr (str "Hell")) ruleHello = false ∧
    findMatch { rules := [ruleHello], isLoaded := true } (str "  hELLo ") = some ruleHello := by
  refine ⟨?_, ?_, ?_⟩
  · exact (c1_exact_match ruleHello (str "Hello") (str "  hELLo ") rfl rfl
      (by decide)).1 (by decide)
  · exact (c1_exact_match ruleHello (str "Hello") (str "Hell") rfl rfl
      (by decide)).2.1 ⟨by decide, Or.inl (by decide)⟩
  · exact ((c1_exact_match ruleHello (str "Hello") (str "  hELLo ") rfl rfl
      (by decide)).2.2 _ rfl rfl (by decide)).mpr (by decide)

/-- Counterexample to claim C2 as stated: in a rule set loaded from a
payload holding two rules that both match "hi", with distinct integer
priorities 0 and 1, `findMatch` returns the priority-1 rule, not the rule
with the numerically lower priority 0 — because the sort key
`a.priority || 999` treats the falsy priority 0 as 999. -/
theorem c2_counterexample :
    matchesRule (trimStr (str "hi")) rulePriorityZero = true ∧
    matchesRule (trimStr (str "hi")) rulePriorityOne = true ∧
    rulePriorityZero.priority = some 0 ∧
    rulePriorityOne.priority = some 1 ∧
    rulePriorityZero ∈ matcherPriorities.rules ∧
    rulePriorityOne ∈ matcherPriorities.rules ∧
    findMatch matcherPriorities (str "hi") = some rulePriorityOne := by decide

/-- Claim C2 as amended: for a loaded (hence `sortRules`-sorted) rule set,
if two rules both match the trimmed input and their effective priorities —
priority treated as 999 when absent or zero — are distinct, `findMatch`
returns a matching rule whose effective priority is at most the lower of
the two; in particular it never returns the strictly higher-priority rule
of the pair. -/
theorem c2_priority_precedence (l : List Rule) (m : Matcher) (input : Str)
    (hrules : m.rules = sortRules l) (hloaded : m.isLoaded = true)
    (r1 r2 : Rule) (h1m : r1 ∈ m.rules) (_h2m : r2 ∈ m.rules)
    (hmatch1 : matchesRule (trimStr input) r1 = true)
    (_hmatch2 : matchesRule (trimStr input) r2 = true)
    (hk : effKey r1 < effKey r2)
    (hne : trimStr input ≠ []) :
    ∃ x, findMatch m input = some x ∧ matchesRule (trimStr input) x = true ∧
      effKey x ≤ effKey r1 ∧ x ≠ r2 := by
  have hsorted : List.Sorted effLE m.rules := hrules ▸ sortRules_sorted l
  obtain ⟨x, hf, hpx, hle⟩ :=
    find?_sorted_min (p := fun r => matchesRule (trimStr input) r) hsorted h1m hmatch1
  refine ⟨x, ?_, hpx, hle, ?_⟩
  · simp [findMatch, hloaded, hne]
    exact hf
  · intro hx
    rw [hx] at hle
    exact absurd (lt_of_le_of_lt hle hk) (lt_irrefl _)

/-- Witness for C2 (amended) on the concrete loaded matcher with the
priority-0 and priority-1 "hi" rules. -/
theorem c2_priority_precedence_witness :
    ∃ x, findMatch matcherPriorities (str "hi") = some x ∧
      matchesRule (trimStr (str "hi")) x = true ∧
      effKey x ≤ effKey rulePriorityOne ∧ x ≠ rulePriorityZero :=
  c2_priority_precedence [rulePriorityZero, rulePriorityOne] matcherPriorities (str "hi")
    rfl rfl rulePriorityOne rulePriorityZero (by decide) (by decide) (by decide) (by decide)
    (by decide) (by decide)

/-- Claim C3: on a loaded matcher containing a catch-all rule (scalar match
equal to the wildcard sentinel "*"), for every input that is non-empty
after trimming and whose per-rule normalization differs from every literal
match string in the set, `findMatch` returns a wildcard rule — never
`null`. -/
theorem c3_catchall_coverage (m : Matcher) (input : Str)
    (hloaded : m.isLoaded = true) (hne : trimStr input ≠ [])
    (w : Rule) (hwmem : w ∈ m.rules) (hwild : w.matchPat = MatchVal.scalar wildcard)
    (hnolit : ∀ r ∈ m.rules, ∀ t ∈ litMatches r,
      (if r.caseSensitive then trimStr input else lowerStr (trimStr input)) ≠
        (if r.caseSensitive then t else lowerStr t)) :
    ∃ x, findMatch m input = some x ∧ x.matchPat = MatchVal.scalar wildcard := by
  have hwm : matchesRule (trimStr input) w = true := by
    simp [matchesRule, hwild]
  obtain ⟨x, hf, hpx, hxm⟩ :=
    find?_mem_of_sat (p := fun r => matchesRule (trimStr input) r) hwmem hwm
  refine ⟨x, ?_, ?_⟩
  · simp [findMatch, hloaded, hne]
    exact hf
  · rcases hmp : x.matchPat with s | ts
    · by_cases hsw : s = wildcard
      · rw [hsw]
      · exfalso
        rw [matchesRule_scalar_eq hmp hsw] at hpx
        exact hnolit x hxm s (by simp [litMatches, hmp, hsw]) (beq_iff_eq.mp hpx)
    · exfalso
      rw [matchesRule_array_eq hmp] at hpx
      obtain ⟨t, htm, hteq⟩ := List.any_eq_true.mp hpx
      exact hnolit x hxm t (by simp [litMatches, hmp, htm]) (beq_iff_eq.mp hteq)

/-- Witness for C3: the matcher holding the "Hello" rule and a catch-all,
fed the unmatched input "xyz", answers with the catch-all. -/
theorem c3_catchall_coverage_witness :
    ∃ x, findMatch matcherWithCatchAll (str "xyz") = some x ∧
      x.matchPat = MatchVal.scalar wildcard :=
  c3_catchall_coverage matcherWithCatchAll (str "xyz") rfl (by decide)
    ruleCatchAll (by decide) rfl (by decide)

/-- Counterexample to claim C4 as stated: with an unparseable persisted
override and a perfectly usable fetched default available, `loadRules` does
NOT attempt the secondary source — the `JSON.parse` exception jumps
straight to the `catch`, landing on the embedded fallback set (while with
the override merely absent the same fetched data is used). -/
theorem c4_counterexample :
    (loadRules (some ParseOutcome.malformed) (FetchOutcome.ok (some [simpleRule]))).source =
      Source.fallback ∧
    (loadRules (some ParseOutcome.malformed) (FetchOutcome.ok (some [simpleRule]))).rules ≠
      sortRules [simpleRule] ∧
    (loadRules none (FetchOutcome.ok (some [simpleRule]))).rules = sortRules [simpleRule] ∧
    (loadRules none (FetchOutcome.ok (some [simpleRule]))).source = Source.jsonFile := by
  decide

/-- Claim C4 as amended: `loadRules` attempts the persisted override first;
when the override is absent, or parses to data without a rules array, it
attempts the fetched default source; when the override is unparseable — or
when the fetch path fails or its data lacks a rules array — it falls back
to the embedded default rule set. In every case it completes with
`isLoaded` set and a rule set sorted by effective priority. -/
theorem c4_load_chain (localRules : Option ParseOutcome) (fetched : FetchOutcome) :
    (loadRules localRules fetched).isLoaded = true ∧
    List.Sorted effLE (loadRules localRules fetched).rules ∧
    (∀ rs, localRules = some (ParseOutcome.value (some rs)) →
      loadRules localRules fetched = ⟨sortRules rs, true, Source.localStorage⟩) ∧
    (localRules = some ParseOutcome.malformed →
      loadRules localRules fetched = ⟨sortRules getFallbackRules, true, Source.fallback⟩) ∧
    ((localRules = none ∨ localRules = some (ParseOutcome.value none)) →
      (∀ rs, fetched = FetchOutcome.ok (some rs) →
        loadRules localRules fetched = ⟨sortRules rs, true, Source.jsonFile⟩) ∧
      ((fetched = FetchOutcome.fail ∨ fetched = FetchOutcome.ok none) →
        loadRules localRules fetched = ⟨sortRules getFallbackRules, true, Source.fallback⟩)) := by
  rcases localRules with _ | (_ | (_ | rs)) <;>
    rcases fetched with _ | (_ | rs2) <;>
      refine ⟨rfl, sortRules_sorted _, ?_, ?_, ?_⟩ <;>
        simp [loadRules]

/-- Witness for C4 (amended): a malformed override with a failing fetch
lands on the sorted embedded fallback set. -/
theorem c4_load_chain_witness :
    loadRules (some ParseOutcome.malformed) FetchOutcome.fail =
      ⟨sortRules getFallbackRules, true, Source.fallback⟩ :=
  (c4_load_chain (some ParseOutcome.malformed) FetchOutcome.fail).2.2.2.1 rfl

/-- Counterexample to claim C5 as stated: a change-notification payload
holding a priority-0 rule and a priority-1 rule is installed as
[priority 1, priority 0], which is not "sorted ascending by priority with
missing priority treated as 999" (`claimKey`), because the code's sort key
`priority || 999` also maps the falsy priority 0 to 999. -/
theorem c5_counterexample :
    (handleStorageEvent matcherEmpty chatRulesKey
        (some (ParseOutcome.value (some [rulePriorityZero, rulePriorityOne])))).rules =
      [rulePriorityOne, rulePriorityZero] ∧
    claimKey rulePriorityZero = 0 ∧
    claimKey rulePriorityOne = 1 ∧
    ¬ List.Sorted (fun a b => claimKey a ≤ claimKey b)
      (handleStorageEvent matcherEmpty chatRulesKey
        (some (ParseOutcome.value (some [rulePriorityZero, rulePriorityOne])))).rules := by
  decide

/-- Claim C5 as amended: on a storage notification for the `chatRules` key
whose payload parses to an object with a rules array, the in-memory rule
set becomes exactly the payload's rules sorted ascending by effective
priority (priority treated as 999 when absent or zero): the new list is a
permutation of the payload, sorted by `effKey`, an element is retained iff
it is in the payload (so nothing from the prior set survives), and the
swap is a single whole-list replacement. -/
theorem c5_storage_sync (m : Matcher) (rs : List Rule) :
    (handleStorageEvent m chatRulesKey (some (ParseOutcome.value (some rs)))).rules =
      sortRules rs ∧
    ((handleStorageEvent m chatRulesKey (some (ParseOutcome.value (some rs)))).rules).Perm rs ∧
    List.Sorted effLE
      (handleStorageEvent m chatRulesKey (some (ParseOutcome.value (some rs)))).rules ∧
    (∀ r, r ∈ (handleStorageEvent m chatRulesKey (some (ParseOutcome.value (some rs)))).rules ↔
      r ∈ rs) ∧
    (handleStorageEvent m chatRulesKey (some (ParseOutcome.value (some rs)))).isLoaded =
      m.isLoaded := by
  have h : handleStorageEvent m chatRulesKey (some (ParseOutcome.value (some rs))) =
      { m with rules := sortRules rs } := by
    simp [handleStorageEvent]
  rw [h]
  exact ⟨rfl, sortRules_perm rs, sortRules_sorted rs,
    fun r => (sortRules_perm rs).mem_iff, rfl⟩

/-- When no image-typed rule matches the user message and no image-typed
rule's match contains a generic keyword, the image-alternative scan comes
back empty. -/
theorem findImageAlternative_eq_none {userMessage : Str} {allRules : List Rule}
    (hnoimg : ∀ r ∈ allRules, r.type = RType.image → matchesRule userMessage r = false)
    (hnokw : ∀ r ∈ allRules, r.type = RType.image →
      matchIncludes r.matchPat demoKeyword = false ∧
      matchIncludes r.matchPat screenshotKeyword = false) :
    findImageAlternative userMessage allRules = none := by
  have h1 : allRules.find?
      (fun r => r.type == RType.image && matchesRule userMessage r) = none := by
    rw [List.find?_eq_none]
    intro x hx
    by_cases ht : x.type = RType.image
    · simp [ht, hnoimg x hx ht]
    · simp [ht]
  have h2 : allRules.filter (fun r => r.type == RType.image &&
      (matchIncludes r.matchPat demoKeyword ||
        matchIncludes r.matchPat screenshotKeyword)) = [] := by
    rw [List.filter_eq_nil_iff]
    intro x hx
    by_cases ht : x.type = RType.image
    · have hk := hnokw x hx ht
      simp [ht, hk.1, hk.2]
    · simp [ht]
  simp [findImageAlternative, h1, h2]

/-- Claim C6: in image mode, when the matched rule produced a text response
and the rule set holds no image-typed rule matching the original input nor
any image-typed rule whose match contains "demo" or "screenshot", the
recorded assistant message is the original text response unchanged: type
text, same value, same followup. -/
theorem c6_modality_fallback (response : Response) (originalMessage : Str)
    (allRules : List Rule)
    (htext : response.type = RType.text)
    (hnoimg : ∀ r ∈ allRules, r.type = RType.image →
      matchesRule originalMessage r = false)
    (hnokw : ∀ r ∈ allRules, r.type = RType.image →
      matchIncludes r.matchPat demoKeyword = false ∧
      matchIncludes r.matchPat screenshotKeyword = false) :
    handleResponse true response originalMessage allRules =
      { content := response.value, responseType := RType.text
        followup := response.followup } := by
  have halt := findImageAlternative_eq_none hnoimg hnokw
  simp [handleResponse, htext, halt]

/-- Witness for C6: a text-only rule set with an image-mode request keeps
the text response intact. -/
theorem c6_modality_fallback_witness :
    handleResponse true textResponse (str "show me a chart") [textOnlyRule] =
      { content := textResponse.value, responseType := RType.text
        followup := textResponse.followup } :=
  c6_modality_fallback textResponse (str "show me a chart") [textOnlyRule] rfl
    (by decide) (by decide)

/-- `takeLast` keeps at most `n` elements. -/
theorem takeLast_length_le {α : Type} (n : Nat) (l : List α) :
    (takeLast n l).length ≤ n := by
  simp [takeLast]
  omega

/-- `appendToChat` never changes the chat id. -/
theorem appendToChat_id (c : Chat) (message : MsgIn) (newMsgId now : Str) :
    (appendToChat c message newMsgId now).id = c.id := by
  simp only [appendToChat]
  split <;> rfl

/-- The messages stored by `appendToChat` are exactly the last
`maxMessagesPerChat` of the old messages followed by the new one, and the
stored `messageCount` equals the stored list's length. -/
theorem appendToChat_messages (c : Chat) (message : MsgIn) (newMsgId now : Str) :
    (appendToChat c message newMsgId now).messages =
      takeLast maxMessagesPerChat
        (c.messages ++ [{ id := newMsgId, timestamp := now, body := message }]) ∧
    (appendToChat c message newMsgId now).messageCount =
      (appendToChat c message newMsgId now).messages.length := by
  simp only [appendToChat]
  split
  · exact ⟨rfl, rfl⟩
  · next h =>
    have h0 : c.messages.length + 1 ≤ maxMessagesPerChat := by
      simpa using Nat.not_lt.mp h
    refine ⟨?_, rfl⟩
    simp [takeLast, Nat.sub_eq_zero_of_le h0]

/-- The title stored by `appendToChat` follows the first-user-message
derivation rule. -/
theorem appendToChat_title (c : Chat) (message : MsgIn) (newMsgId now : Str) :
    (appendToChat c message newMsgId now).title =
      (if c.title = newChatTitle ∧ message.type = MsgType.user ∧ message.content ≠ []
        then generateChatTitle message.content else c.title) := by
  simp only [appendToChat]
  split <;> rfl

/-- `updateFirst` transforms exactly the element `find?` locates, provided
the transformation preserves the predicate. -/
theorem find?_updateFirst {α : Type} {p : α → Bool} {f : α → α} :
    ∀ {l : List α} {c : α}, l.find? p = some c → p (f c) = true →
      (updateFirst p f l).find? p = some (f c) := by
  intro l
  induction l with
  | nil => intro c hc _; simp [List.find?] at hc
  | cons h t ih =>
    intro c hc hpf
    by_cases hph : p h = true
    · rw [List.find?_cons_of_pos t hph] at hc
      injection hc with hc1
      subst hc1
      simp [updateFirst, hph, List.find?_cons_of_pos _ hpf]
    · rw [List.find?_cons_of_neg t hph] at hc
      have hrec := ih hc hpf
      simp [updateFirst, hph, List.find?_cons_of_neg _ hph, hrec]

/-- Claim C7: a successful `addMessageToChat` leaves the target session
with at most `maxMessagesPerChat` (100) messages, retained as exactly the
most recent ones (the tail of old-messages-plus-new, oldest dropped
first), and with `messageCount` equal to the actual list length. -/
theorem c7_session_bounds (d : Data) (chatId : Str) (message : MsgIn) (newMsgId now : Str)
    (c : Chat) (hfind : d.chats.find? (fun x => x.id == chatId) = some c) :
    ∃ d', addMessageToChat (some d) chatId message newMsgId now = (some d', true) ∧
      ∃ c', d'.chats.find? (fun x => x.id == chatId) = some c' ∧
        c'.messages = takeLast maxMessagesPerChat
          (c.messages ++ [{ id := newMsgId, timestamp := now, body := message }]) ∧
        c'.messages.length ≤ maxMessagesPerChat ∧
        c'.messageCount = c'.messages.length := by
  let chats1 := updateFirst (fun x => x.id == chatId)
    (fun x => appendToChat x message newMsgId now) d.chats
  refine ⟨{ d with chats := chats1 }, ?_, ?_⟩
  · simp [addMessageToChat, hfind, chats1]
  · refine ⟨appendToChat c message newMsgId now, ?_, ?_, ?_, ?_⟩
    · exact find?_updateFirst hfind
        (by rw [appendToChat_id]
            exact List.find?_some (p := fun x : Chat => x.id == chatId) hfind)
    · exact (appendToChat_messages c message newMsgId now).1
    · rw [(appendToChat_messages c message newMsgId now).1]
      exact takeLast_length_le _ _
    · exact (appendToChat_messages c message newMsgId now).2

/-- Witness for C7: appending a user message to the "chat_a" session of the
concrete two-session store. -/
theorem c7_session_bounds_witness :
    ∃ d', addMessageToChat (some dataTwoChats) (str "chat_a") msgHiThere
        (str "m1") (str "t1") = (some d', true) ∧
      ∃ c', d'.chats.find? (fun x => x.id == str "chat_a") = some c' ∧
        c'.messages = takeLast maxMessagesPerChat
          (chatAlpha.messages ++ [{ id := str "m1", timestamp := str "t1", body := msgHiThere }]) ∧
        c'.messages.length ≤ maxMessagesPerChat ∧
        c'.messageCount = c'.messages.length :=
  c7_session_bounds dataTwoChats (str "chat_a") msgHiThere (str "m1") (str "t1")
    chatAlpha (by decide)

/-- Counterexample to claim C8 as stated: `generateChatTitle` keeps the
FIRST 30 CHARACTERS of the content and then appends the ellipsis, so the
derived title is "Hello there, how are you doing..." — not the claimed
"Hello there, how are you doin..." (29 characters plus ellipsis). -/
theorem c8_counterexample :
    generateChatTitle (str "Hello there, how are you doing today?") =
      str "Hello there, how are you doing..." ∧
    generateChatTitle (str "Hello there, how are you doing today?") ≠
      str "Hello there, how are you doin..." := by
  decide

/-- Claim C8 as amended: appending a first user message with content
"Hello there, how are you doing today?" (longer than 30 characters) to a
session still titled "New Chat" sets the session title to
"Hello there, how are you doing..." — the first 30 characters plus
ellipsis — with a capitalized first letter. -/
theorem c8_title_derivation (d : Data) (chatId newMsgId now : Str) (c : Chat)
    (hfind : d.chats.find? (fun x => x.id == chatId) = some c)
    (htitle : c.title = newChatTitle) :
    ∃ d', addMessageToChat (some d) chatId
        { type := MsgType.user, content := str "Hello there, how are you doing today?" }
        newMsgId now = (some d', true) ∧
      ∃ c', d'.chats.find? (fun x => x.id == chatId) = some c' ∧
        c'.title = str "Hello there, how are you doing..." := by
  let message : MsgIn :=
    { type := MsgType.user, content := str "Hello there, how are you doing today?" }
  let chats1 := updateFirst (fun x => x.id == chatId)
    (fun x => appendToChat x message newMsgId now) d.chats
  refine ⟨{ d with chats := chats1 }, ?_, ?_⟩
  · simp [addMessageToChat, hfind, chats1, message]
  · refine ⟨appendToChat c message newMsgId now, ?_, ?_⟩
    · exact find?_updateFirst hfind
        (by rw [appendToChat_id]
            exact List.find?_some (p := fun x : Chat => x.id == chatId) hfind)
    · rw [appendToChat_title, if_pos ⟨htitle, rfl, by decide⟩]
      decide

/-- Witness for C8 (amended): the concrete "New Chat" session picks up the
derived title. -/
theorem c8_title_derivation_witness :
    ∃ d', addMessageToChat (some dataTwoChats) (str "chat_n")
        { type := MsgType.user, content := str "Hello there, how are you doing today?" }
        (str "m2") (str "t2") = (some d', true) ∧
      ∃ c', d'.chats.find? (fun x => x.id == str "chat_n") = some c' ∧
        c'.title = str "Hello there, how are you doing..." :=
  c8_title_derivation dataTwoChats (str "chat_n") (str "m2") (str "t2") chatNew
    (by decide) rfl

/-- Claim C9: `addMessageToChat` with a session id that matches no stored
session returns `false` and leaves the persisted collection entirely
unchanged. -/
theorem c9_unknown_session (d : Data) (chatId : Str) (message : MsgIn)
    (newMsgId now : Str)
    (hunknown : ∀ c ∈ d.chats, (c.id == chatId) = false) :
    addMessageToChat (some d) chatId message newMsgId now = (some d, false) := by
  have hnone : d.chats.find? (fun x => x.id == chatId) = none := by
    rw [List.find?_eq_none]
    intro x hx
    simp [hunknown x hx]
  simp [addMessageToChat, hnone]

/-- Witness for C9: an unknown session id on the concrete two-session
store. -/
theorem c9_unknown_session_witness :
    addMessageToChat (some dataTwoChats) (str "chat_x") msgHiThere (str "m3") (str "t3") =
      (some dataTwoChats, false) :=
  c9_unknown_session dataTwoChats (str "chat_x") msgHiThere (str "m3") (str "t3")
    (by decide)

/-- `findIdx?` on a list whose first satisfying element sits after a prefix
of non-satisfying ones returns that element's position (shifted by the
start index). -/
theorem findIdx?_append_cons {α : Type} {p : α → Bool} :
    ∀ (pre : List α) (c : α) (post : List α) (i : Nat),
      (∀ x ∈ pre, p x = false) → p c = true →
      (pre ++ c :: post).findIdx? p i = some (pre.length + i) := by
  intro pre
  induction pre with
  | nil =>
    intro c post i _ hc
    simp [List.findIdx?_cons, hc]
  | cons h t ih =>
    intro c post i hpre hc
    have hph : p h = false := hpre h (List.mem_cons_self h t)
    have hrec := ih c post (i + 1) (fun x hx => hpre x (List.mem_cons_of_mem h hx)) hc
    rw [List.cons_append, List.findIdx?_cons, if_neg (by simp [hph]), hrec,
      List.length_cons]
    exact congrArg some (by omega)

/-- Claim C10: for a stored session id (decomposing the collection around
its first occurrence), `deleteChat` removes exactly that session — the
remaining list is the concatenation of the sessions before and after it —
and the current-session pointer is cleared iff it pointed at the deleted
session, otherwise left unchanged. -/
theorem c10_delete_session (d : Data) (chatId : Str) (pre post : List Chat) (c : Chat)
    (hsplit : d.chats = pre ++ c :: post)
    (hpre : ∀ x ∈ pre, (x.id == chatId) = false)
    (hc : (c.id == chatId) = true) :
    ∃ d', deleteChat (some d) chatId = (some d', true) ∧
      d'.chats = pre ++ post ∧
      (d.currentChatId = some chatId → d'.currentChatId = none) ∧
      (d.currentChatId ≠ some chatId → d'.currentChatId = d.currentChatId) := by
  have hidx : d.chats.findIdx? (fun x => x.id == chatId) = some pre.length := by
    rw [hsplit]
    simpa using findIdx?_append_cons pre c post 0 hpre hc
  have htake : List.take pre.length d.chats = pre := by
    rw [hsplit]
    exact List.take_left' rfl
  have hdrop : List.drop (pre.length + 1) d.chats = post := by
    rw [hsplit, show pre ++ c :: post = (pre ++ [c]) ++ post by simp]
    exact List.drop_left' (by simp)
  let current1 : Option Str := if d.currentChatId == some chatId then none
    else d.currentChatId
  refine ⟨{ chats := pre ++ post, currentChatId := current1 }, ?_, rfl, ?_, ?_⟩
  · simp [deleteChat, hidx, htake, hdrop, current1]
  · intro h
    simp only [current1, h]
    simp
  · intro h
    simp only [current1]
    rw [if_neg]
    simp only [beq_iff_eq]
    exact h

/-- Witness for C10: deleting the non-current "chat_n" session from the
concrete two-session store. -/
theorem c10_delete_session_witness :
    ∃ d', deleteChat (some dataTwoChats) (str "chat_n") = (some d', true) ∧
      d'.chats = [chatAlpha] ++ [] ∧
      (dataTwoChats.currentChatId = some (str "chat_n") → d'.currentChatId = none) ∧
      (dataTwoChats.currentChatId ≠ some (str "chat_n") →
        d'.currentChatId = dataTwoChats.currentChatId) :=
  c10_delete_session dataTwoChats (str "chat_n") [chatAlpha] [] chatNew
    (by decide) (by decide) (by decide)

end OwuiMock
